import Mathlib

/-!
Verification of the metadata access layer of go-vcloud-director
(`src/govcd/metadata_v2.go`).

The Go code is shallowly embedded as executable Lean definitions:

* The XML payload structs of the `types/v56` package (`types.MetadataValue`,
  `types.MetadataTypedValue`, `types.MetadataDomainTag`, `types.MetadataEntry`,
  `types.Metadata`) become Lean structures with the same field names.
* A URL is modelled as its string form.  The Go code parses `requestUri` with
  `urlParseRequestURI`, appends to `.Path` and serialises back with `.String()`;
  for the path manipulations performed here this round-trip is string
  concatenation, which is how it is modelled.
* `client.ExecuteTaskRequest` is an external collaborator.  Each call site is
  modelled by a `TaskRequest` record (URL, HTTP verb, content type, error
  format string, payload) handed to an explicit client parameter
  `exec : TaskRequest → Except String Task`; errors are modelled by their
  message string, mirroring Go `error` values observed through `err.Error()`.
  `client.ExecuteRequest` (reads) is modelled the same way with `GetRequest`.
* `task.WaitTaskCompletion` is modelled by an explicit parameter
  `wait : Task → Option String` (`none` = success, `some msg` = the task's
  terminal failure), matching the Go `error` result.
* Go maps passed to the merge operations are modelled as association lists
  (`List (String × MetadataValue)`); the Go loop over the map appends one
  entry per item, which is `List.map`.
-/

namespace Govcd

/-- Modelled from the spec: constant `types.XMLNamespaceVCloud` of the
`types/v56` package, which is not included under `src/`; the vCloud XML
namespace emitted on write payloads. -/
def XMLNamespaceVCloud : String := "http://www.vmware.com/vcloud/v1.5"

/-- Modelled from the spec: constant `types.XMLNamespaceXSI` of the
`types/v56` package, which is not included under `src/`; the XML Schema
instance namespace emitted on write payloads. -/
def XMLNamespaceXSI : String := "http://www.w3.org/2001/XMLSchema-instance"

/-- Modelled from the spec: constant `types.MetadataReadWriteVisibility` of the
`types/v56` package, which is not included under `src/`; the wire name of the
ReadWrite visibility. -/
def MetadataReadWriteVisibility : String := "READWRITE"

/-- Modelled from the spec: constant `types.MimeMetaData` of the `types/v56`
package, which is not included under `src/`; MIME type of a full metadata
collection. -/
def MimeMetaData : String := "application/vnd.vmware.vcloud.metadata+xml"

/-- Modelled from the spec: constant `types.MimeMetaDataValue` of the
`types/v56` package, which is not included under `src/`; MIME type of a single
metadata value. -/
def MimeMetaDataValue : String := "application/vnd.vmware.vcloud.metadata.value+xml"

/-- Embedding of `types.MetadataTypedValue`: a typed literal value. -/
structure MetadataTypedValue where
  XsiType : String
  Value : String
deriving DecidableEq

/-- Embedding of `types.MetadataDomainTag`: the domain/visibility tag of a
metadata entry. -/
structure MetadataDomainTag where
  Visibility : String
  Domain : String
deriving DecidableEq

/-- Embedding of `types.MetadataValue`: the payload of a single-value metadata
write.  The Go `TypedValue` and `Domain` fields are pointers, hence `Option`. -/
structure MetadataValue where
  Xmlns : String
  Xsi : String
  TypedValue : Option MetadataTypedValue
  Domain : Option MetadataDomainTag
deriving DecidableEq

/-- Embedding of `types.MetadataEntry`: one entry of a batch metadata payload. -/
structure MetadataEntry where
  Xmlns : String
  Xsi : String
  Key : String
  TypedValue : Option MetadataTypedValue
  Domain : Option MetadataDomainTag
deriving DecidableEq

/-- Embedding of `types.Metadata`: the batch payload of a merge request. -/
structure Metadata where
  Xmlns : String
  Xsi : String
  MetadataEntry : List MetadataEntry
deriving DecidableEq

/-- Embedding of an opaque `Task` handle returned by `ExecuteTaskRequest`. -/
structure Task where
  taskID : Nat
deriving DecidableEq

/-- HTTP verbs used by the metadata layer. -/
inductive HttpMethod where
  | get
  | put
  | post
  | delete
deriving DecidableEq

/-- Body of a task-producing request: nothing (delete), one value (add), or a
batch payload (merge). -/
inductive RequestBody where
  | none
  | metadataValue (v : MetadataValue)
  | metadata (m : Metadata)
deriving DecidableEq

/-- One call to `client.ExecuteTaskRequest`: target URL, verb, content type,
error format string and payload. -/
structure TaskRequest where
  uri : String
  method : HttpMethod
  contentType : String
  errorMessage : String
  body : RequestBody
deriving DecidableEq

/-- One call to `client.ExecuteRequest` (read operations): target URL, verb,
content type and error format string. -/
structure GetRequest where
  uri : String
  method : HttpMethod
  contentType : String
  errorMessage : String
deriving DecidableEq

instance {ε α : Type} [DecidableEq ε] [DecidableEq α] : DecidableEq (Except ε α) := fun a b =>
  match a, b with
  | Except.ok x, Except.ok y =>
    if h : x = y then isTrue (by rw [h]) else isFalse (by intro hc; cases hc; exact h rfl)
  | Except.error x, Except.error y =>
    if h : x = y then isTrue (by rw [h]) else isFalse (by intro hc; cases hc; exact h rfl)
  | Except.ok _, Except.error _ => isFalse (by intro hc; cases hc)
  | Except.error _, Except.ok _ => isFalse (by intro hc; cases hc)

/-- Embedding of Go `strings.HasSuffix s suffix` on the character lists of the
strings. -/
def hasSuffix (s suffix : String) : Bool :=
  List.isSuffixOf suffix.data s.data

/-- Substring test used to state facts about error messages: `pat` occurs
inside the character list `l`. -/
def listContainsPat (pat : List Char) : List Char → Bool
  | [] => List.isPrefixOf pat []
  | c :: rest => List.isPrefixOf pat (c :: rest) || listContainsPat pat rest

/-- Substring test on strings: `pat` occurs somewhere inside `s`. -/
def containsSubstr (s pat : String) : Bool :=
  listContainsPat pat.data s.data

/-- Modelled from the spec: `getAdminURL` is defined elsewhere in this
repository (not under `src/`).  Per spec section 6, one resource type
"requires an `/admin/` path segment substitution before the `/metadata`
suffix"; the model inserts `admin/` after the first occurrence of the API base
segment `/api/`. -/
def getAdminURLAux : List Char → List Char
  | [] => []
  | '/' :: 'a' :: 'p' :: 'i' :: '/' :: rest =>
      '/' :: 'a' :: 'p' :: 'i' :: '/' :: 'a' :: 'd' :: 'm' :: 'i' :: 'n' :: '/' :: rest
  | c :: rest => c :: getAdminURLAux rest

/-- Modelled from the spec: string form of `getAdminURL`, see `getAdminURLAux`. -/
def getAdminURL (href : String) : String :=
  String.mk (getAdminURLAux href.data)

/-- Embedding of `getMetadataByKey` (metadata_v2.go:736-746), request part:
`href := requestUri + "/metadata/"`, plus `"SYSTEM/"` when `isSystem`, then a
GET on `href + key`. -/
def getMetadataByKeyRequest (requestUri key : String) (isSystem : Bool) : GetRequest :=
  let href := (requestUri ++ "/metadata/") ++ (if isSystem then "SYSTEM/" else "")
  { uri := href ++ key
    method := HttpMethod.get
    contentType := MimeMetaData
    errorMessage := "error retrieving metadata by key " ++ key ++ ": %s" }

/-- Embedding of `getMetadataByKey` (metadata_v2.go:736-746): issues the GET
request through the client and returns its result. -/
def getMetadataByKey (execValue : GetRequest → Except String MetadataValue)
    (requestUri key : String) (isSystem : Bool) : Except String MetadataValue :=
  execValue (getMetadataByKeyRequest requestUri key isSystem)

/-- Embedding of `getMetadata` (metadata_v2.go:748-754), request part: a GET on
`requestUri + "/metadata/"`. -/
def getMetadataRequest (requestUri : String) : GetRequest :=
  { uri := requestUri ++ "/metadata/"
    method := HttpMethod.get
    contentType := MimeMetaData
    errorMessage := "error retrieving metadata: %s" }

/-- Embedding of `getMetadata` (metadata_v2.go:748-754): issues the GET request
through the client and returns its result. -/
def getMetadata (execAll : GetRequest → Except String Metadata)
    (requestUri : String) : Except String Metadata :=
  execAll (getMetadataRequest requestUri)

/-- Embedding of the `newMetadata.Domain` tag built by `addMetadata`
(metadata_v2.go:771-785): starts as `{Visibility: visibility, Domain: "SYSTEM"}`;
when `isSystem` is false the domain is set to `"GENERAL"` and, when the
requested visibility differs from `types.MetadataReadWriteVisibility`, the
visibility is overwritten with it. -/
def addMetadataDomainTag (visibility : String) (isSystem : Bool) : MetadataDomainTag :=
  let d : MetadataDomainTag := { Visibility := visibility, Domain := "SYSTEM" }
  if isSystem then d
  else
    let d := { d with Domain := "GENERAL" }
    if visibility ≠ MetadataReadWriteVisibility then
      { d with Visibility := MetadataReadWriteVisibility }
    else d

/-- Embedding of the `newMetadata` payload built by `addMetadata`
(metadata_v2.go:764-785). -/
def addMetadataValue (value typedValue visibility : String) (isSystem : Bool) : MetadataValue :=
  { Xmlns := XMLNamespaceVCloud
    Xsi := XMLNamespaceXSI
    TypedValue := some { XsiType := typedValue, Value := value }
    Domain := some (addMetadataDomainTag visibility isSystem) }

/-- Embedding of the path built by `addMetadata` (metadata_v2.go:777-780):
`apiEndpoint.Path += "/metadata/SYSTEM/" + key` when `isSystem`, otherwise
`apiEndpoint.Path += "/metadata/" + key`. -/
def addMetadataPath (requestUri key : String) (isSystem : Bool) : String :=
  if isSystem then requestUri ++ ("/metadata/SYSTEM/" ++ key)
  else requestUri ++ ("/metadata/" ++ key)

/-- Embedding of the `ExecuteTaskRequest` call of `addMetadata`
(metadata_v2.go:788): a PUT of the single-value payload. -/
def addMetadataRequest (requestUri key value typedValue visibility : String)
    (isSystem : Bool) : TaskRequest :=
  { uri := addMetadataPath requestUri key isSystem
    method := HttpMethod.put
    contentType := MimeMetaDataValue
    errorMessage := "error adding metadata: %s"
    body := RequestBody.metadataValue (addMetadataValue value typedValue visibility isSystem) }

/-- Embedding of `addMetadata` (metadata_v2.go:762-795).  `domain` mirrors the
Go line `domain := newMetadata.Domain.Visibility`; when the client's error
message ends in the literal word `visibility` the error is rewritten exactly as
the Go `fmt.Errorf` call does, otherwise it is returned unchanged. -/
def addMetadata (exec : TaskRequest → Except String Task)
    (requestUri key value typedValue visibility : String) (isSystem : Bool) :
    Except String Task :=
  let domain := (addMetadataDomainTag visibility isSystem).Visibility
  match exec (addMetadataRequest requestUri key value typedValue visibility isSystem) with
  | Except.ok task => Except.ok task
  | Except.error e =>
      if hasSuffix e "visibility" then
        Except.error ("error adding metadata with key " ++ key ++ ": visibility cannot be " ++
          visibility ++ " when domain is " ++ domain ++ ": " ++ e)
      else
        Except.error e

/-- Embedding of `addMetadataAndWait` (metadata_v2.go:801-808): returns the
error of `addMetadata` unchanged, otherwise waits on the returned task. -/
def addMetadataAndWait (exec : TaskRequest → Except String Task)
    (wait : Task → Option String)
    (requestUri key value typedValue visibility : String) (isSystem : Bool) :
    Option String :=
  match addMetadata exec requestUri key value typedValue visibility isSystem with
  | Except.error e => some e
  | Except.ok task => wait task

/-- Embedding of the entry list built by the loop of `mergeAllMetadata`
(metadata_v2.go:814-823): one `MetadataEntry` per map item, carrying the item's
key, typed value and domain. -/
def mergeAllMetadataEntries (metadata : List (String × MetadataValue)) : List MetadataEntry :=
  metadata.map fun kv =>
    { Xmlns := XMLNamespaceVCloud
      Xsi := XMLNamespaceXSI
      Key := kv.1
      TypedValue := kv.2.TypedValue
      Domain := kv.2.Domain }

/-- Embedding of the `ExecuteTaskRequest` call of `mergeAllMetadata`
(metadata_v2.go:825-834): a POST of the batch payload to
`requestUri + "/metadata"`. -/
def mergeAllMetadataRequest (requestUri : String)
    (metadata : List (String × MetadataValue)) : TaskRequest :=
  { uri := requestUri ++ "/metadata"
    method := HttpMethod.post
    contentType := MimeMetaData
    errorMessage := "error adding metadata: %s"
    body := RequestBody.metadata
      { Xmlns := XMLNamespaceVCloud
        Xsi := XMLNamespaceXSI
        MetadataEntry := mergeAllMetadataEntries metadata } }

/-- Embedding of `mergeAllMetadata` (metadata_v2.go:813-835): issues the POST
request through the client and returns its result. -/
def mergeAllMetadata (exec : TaskRequest → Except String Task)
    (requestUri : String) (metadata : List (String × MetadataValue)) :
    Except String Task :=
  exec (mergeAllMetadataRequest requestUri metadata)

/-- Embedding of `mergeMetadataAndWait` (metadata_v2.go:840-847): returns the
error of `mergeAllMetadata` unchanged, otherwise waits on the returned task. -/
def mergeMetadataAndWait (exec : TaskRequest → Except String Task)
    (wait : Task → Option String)
    (requestUri : String) (metadata : List (String × MetadataValue)) :
    Option String :=
  match mergeAllMetadata exec requestUri metadata with
  | Except.error e => some e
  | Except.ok task => wait task

/-- Embedding of the request built by `deleteMetadata` (metadata_v2.go:851-860):
same path selection as `addMetadata`, DELETE verb, empty content type, nil
body. -/
def deleteMetadataRequest (requestUri key : String) (isSystem : Bool) : TaskRequest :=
  { uri :=
      if isSystem then requestUri ++ ("/metadata/SYSTEM/" ++ key)
      else requestUri ++ ("/metadata/" ++ key)
    method := HttpMethod.delete
    contentType := ""
    errorMessage := "error deleting metadata: %s"
    body := RequestBody.none }

/-- Embedding of `deleteMetadata` (metadata_v2.go:851-860): issues the DELETE
request through the client and returns its result. -/
def deleteMetadata (exec : TaskRequest → Except String Task)
    (requestUri key : String) (isSystem : Bool) : Except String Task :=
  exec (deleteMetadataRequest requestUri key isSystem)

/-- Embedding of `deleteMetadataAndWait` (metadata_v2.go:863-870): returns the
error of `deleteMetadata` unchanged, otherwise waits on the returned task. -/
def deleteMetadataAndWait (exec : TaskRequest → Except String Task)
    (wait : Task → Option String)
    (requestUri key : String) (isSystem : Bool) : Option String :=
  match deleteMetadata exec requestUri key isSystem with
  | Except.error e => some e
  | Except.ok task => wait task

/-- Embedding of `types.AdminVdc`: only the `HREF` field is relevant here. -/
structure TypesAdminVdc where
  HREF : String
deriving DecidableEq

/-- Embedding of `govcd.AdminVdc`: wraps `types.AdminVdc` (the `client` field
is replaced by the explicit `exec`/`wait` parameters of the methods). -/
structure AdminVdc where
  adminVdc : TypesAdminVdc
deriving DecidableEq

/-- Embedding of `AdminVdc.DeleteMetadataEntryWithDomainAsync`
(metadata_v2.go:586-588): delegates to `deleteMetadata` with the stored HREF
unchanged. -/
def AdminVdc.DeleteMetadataEntryWithDomainAsync (adminVdc : AdminVdc)
    (exec : TaskRequest → Except String Task) (key : String) (isSystem : Bool) :
    Except String Task :=
  deleteMetadata exec adminVdc.adminVdc.HREF key isSystem

/-- Embedding of `AdminVdc.DeleteMetadataEntryWithDomain`
(metadata_v2.go:663-665): delegates to `deleteMetadataAndWait` with
`getAdminURL(adminVdc.AdminVdc.HREF)`. -/
def AdminVdc.DeleteMetadataEntryWithDomain (adminVdc : AdminVdc)
    (exec : TaskRequest → Except String Task) (wait : Task → Option String)
    (key : String) (isSystem : Bool) : Option String :=
  deleteMetadataAndWait exec wait (getAdminURL adminVdc.adminVdc.HREF) key isSystem

/-- Embedding of `types.OrgVDCNetwork`: only the `HREF` field is relevant
here. -/
structure TypesOrgVDCNetwork where
  HREF : String
deriving DecidableEq

/-- Embedding of `govcd.OrgVDCNetwork`: wraps `types.OrgVDCNetwork`. -/
structure OrgVDCNetwork where
  orgVDCNetwork : TypesOrgVDCNetwork
deriving DecidableEq

/-- Embedding of `OrgVDCNetwork.GetMetadataByKey` (metadata_v2.go:100-102):
reads with the stored HREF unchanged. -/
def OrgVDCNetwork.GetMetadataByKey (orgVdcNetwork : OrgVDCNetwork)
    (execValue : GetRequest → Except String MetadataValue)
    (key : String) (isSystem : Bool) : Except String MetadataValue :=
  getMetadataByKey execValue orgVdcNetwork.orgVDCNetwork.HREF key isSystem

/-- Embedding of `OrgVDCNetwork.GetMetadata` (metadata_v2.go:193-195): reads
with the stored HREF unchanged. -/
def OrgVDCNetwork.GetMetadata (orgVdcNetwork : OrgVDCNetwork)
    (execAll : GetRequest → Except String Metadata) : Except String Metadata :=
  getMetadata execAll orgVdcNetwork.orgVDCNetwork.HREF

/-- Embedding of `OrgVDCNetwork.AddMetadataEntryWithVisibilityAsync`
(metadata_v2.go:284-286): writes through `getAdminURL`. -/
def OrgVDCNetwork.AddMetadataEntryWithVisibilityAsync (orgVdcNetwork : OrgVDCNetwork)
    (exec : TaskRequest → Except String Task)
    (key value typedValue visibility : String) (isSystem : Bool) : Except String Task :=
  addMetadata exec (getAdminURL orgVdcNetwork.orgVDCNetwork.HREF) key value typedValue
    visibility isSystem

/-- Embedding of `OrgVDCNetwork.AddMetadataEntryWithVisibility`
(metadata_v2.go:361-363): writes through `getAdminURL`. -/
def OrgVDCNetwork.AddMetadataEntryWithVisibility (orgVdcNetwork : OrgVDCNetwork)
    (exec : TaskRequest → Except String Task) (wait : Task → Option String)
    (key value typedValue visibility : String) (isSystem : Bool) : Option String :=
  addMetadataAndWait exec wait (getAdminURL orgVdcNetwork.orgVDCNetwork.HREF) key value
    typedValue visibility isSystem

/-- Embedding of `OrgVDCNetwork.MergeMetadataWithMetadataValuesAsync`
(metadata_v2.go:456-458): writes through `getAdminURL`. -/
def OrgVDCNetwork.MergeMetadataWithMetadataValuesAsync (orgVdcNetwork : OrgVDCNetwork)
    (exec : TaskRequest → Except String Task)
    (metadata : List (String × MetadataValue)) : Except String Task :=
  mergeAllMetadata exec (getAdminURL orgVdcNetwork.orgVDCNetwork.HREF) metadata

/-- Embedding of `OrgVDCNetwork.MergeMetadataWithMetadataValues`
(metadata_v2.go:545-547): writes through `getAdminURL`. -/
def OrgVDCNetwork.MergeMetadataWithMetadataValues (orgVdcNetwork : OrgVDCNetwork)
    (exec : TaskRequest → Except String Task) (wait : Task → Option String)
    (metadata : List (String × MetadataValue)) : Option String :=
  mergeMetadataAndWait exec wait (getAdminURL orgVdcNetwork.orgVDCNetwork.HREF) metadata

/-- Embedding of `OrgVDCNetwork.DeleteMetadataEntryWithDomainAsync`
(metadata_v2.go:633-635): writes through `getAdminURL`. -/
def OrgVDCNetwork.DeleteMetadataEntryWithDomainAsync (orgVdcNetwork : OrgVDCNetwork)
    (exec : TaskRequest → Except String Task) (key : String) (isSystem : Bool) :
    Except String Task :=
  deleteMetadata exec (getAdminURL orgVdcNetwork.orgVDCNetwork.HREF) key isSystem

/-- Embedding of `OrgVDCNetwork.DeleteMetadataEntryWithDomain`
(metadata_v2.go:710-712): writes through `getAdminURL`. -/
def OrgVDCNetwork.DeleteMetadataEntryWithDomain (orgVdcNetwork : OrgVDCNetwork)
    (exec : TaskRequest → Except String Task) (wait : Task → Option String)
    (key : String) (isSystem : Bool) : Option String :=
  deleteMetadataAndWait exec wait (getAdminURL orgVdcNetwork.orgVDCNetwork.HREF) key isSystem

/-- Client stub that fails every request with a fixed transport error. -/
def execFail : TaskRequest → Except String Task :=
  fun _ => Except.error "request failed"

/-- Client stub that fails every request with the server's opaque visibility
validation message. -/
def execVis : TaskRequest → Except String Task :=
  fun _ => Except.error "API Error: 500: [ 1 ] visibility"

/-- Client stub that accepts every request and returns a task handle. -/
def execOk : TaskRequest → Except String Task :=
  fun _ => Except.ok { taskID := 7 }

/-- Wait stub whose task terminates with a failure. -/
def waitSome : Task → Option String :=
  fun _ => some "task failed"

/-- Wait stub whose task terminates successfully. -/
def waitNone : Task → Option String :=
  fun _ => none

/-- Sample AdminVdc whose HREF is changed by `getAdminURL`. -/
def sampleAdminVdc : AdminVdc :=
  { adminVdc := { HREF := "https://host/api/vdc/11111111-2222-3333-4444-555555555555" } }

/-- Sample OrgVDCNetwork whose HREF is changed by `getAdminURL`. -/
def sampleOrgVdcNetwork : OrgVDCNetwork :=
  { orgVDCNetwork := { HREF := "https://host/api/network/aaaa" } }

/-- Strings with equal character data are equal. -/
theorem string_eq_of_data_eq {a b : String} (h : a.data = b.data) : a = b := by
  cases a; cases b; exact congrArg String.mk h

/-- Right cancellation for string concatenation. -/
theorem string_append_right_cancel {a b : String} (s : String) (h : a ++ s = b ++ s) : a = b := by
  apply string_eq_of_data_eq
  have hd := congrArg String.data h
  rw [String.data_append, String.data_append] at hd
  exact List.append_cancel_right hd

/-- Appending the same suffix to different strings yields different strings. -/
theorem string_append_ne {a b : String} (s : String) (h : a ≠ b) : a ++ s ≠ b ++ s :=
  fun he => h (string_append_right_cancel s he)

/-- The last character of a concatenation with a nonempty right part. -/
theorem string_last_append (a b : String) (hb : b.data ≠ []) :
    (a ++ b).data.getLast? = b.data.getLast? := by
  rw [String.data_append]
  exact List.getLast?_append_of_ne_nil a.data hb

/-- A URL ending in `/metadata` never coincides with one ending in
`/metadata/`, whatever the two prefixes are. -/
theorem merge_uri_ne_read_uri (g h : String) : g ++ "/metadata" ≠ h ++ "/metadata/" := by
  intro he
  have h1 := string_last_append g "/metadata" (by decide)
  have h2 := string_last_append h "/metadata/" (by decide)
  rw [he] at h1
  rw [h2] at h1
  exact absurd h1 (by decide)

/-- The single-key read URL of `getMetadataByKey` coincides with the write path
of `addMetadata` for the same base URI, key and domain flag. -/
theorem getByKey_uri_eq (requestUri key : String) (isSystem : Bool) :
    (getMetadataByKeyRequest requestUri key isSystem).uri =
      addMetadataPath requestUri key isSystem := by
  cases isSystem
  · show ((requestUri ++ "/metadata/") ++ "") ++ key = requestUri ++ ("/metadata/" ++ key)
    rw [String.append_empty, String.append_assoc]
  · show ((requestUri ++ "/metadata/") ++ "SYSTEM/") ++ key =
      requestUri ++ ("/metadata/SYSTEM/" ++ key)
    rw [String.append_assoc, String.append_assoc,
      ← String.append_assoc "/metadata/" "SYSTEM/" key,
      show ("/metadata/" : String) ++ "SYSTEM/" = "/metadata/SYSTEM/" from by decide]

/-- The DELETE URL of `deleteMetadata` is the write path of `addMetadata`. -/
theorem deleteMetadataRequest_uri_eq (requestUri key : String) (isSystem : Bool) :
    (deleteMetadataRequest requestUri key isSystem).uri =
      addMetadataPath requestUri key isSystem := by
  cases isSystem <;> rfl

/-- Write paths over different base URIs differ. -/
theorem addMetadataPath_ne {a b : String} (key : String) (isSystem : Bool) (h : a ≠ b) :
    addMetadataPath a key isSystem ≠ addMetadataPath b key isSystem := by
  cases isSystem
  · show a ++ ("/metadata/" ++ key) ≠ b ++ ("/metadata/" ++ key)
    exact string_append_ne _ h
  · show a ++ ("/metadata/SYSTEM/" ++ key) ≠ b ++ ("/metadata/SYSTEM/" ++ key)
    exact string_append_ne _ h

/-- Every entry built by `mergeAllMetadata` carries both XML namespace
declarations. -/
theorem mergeAllMetadataEntries_ns (metadata : List (String × MetadataValue)) :
    ((mergeAllMetadataEntries metadata).all fun e =>
      (e.Xmlns == XMLNamespaceVCloud) && (e.Xsi == XMLNamespaceXSI)) = true := by
  induction metadata with
  | nil => rfl
  | cons kv rest ih =>
      simp only [mergeAllMetadataEntries, List.map_cons, List.all_cons] at ih ⊢
      rw [ih]
      decide

/-- Claim C1 (code bug, evaluation at the failing input): when the server
rejects `addMetadata` with a message ending in the literal word `visibility`
(here for key `secret`, requested visibility `READONLY`, `isSystem = false`,
resolved domain tag `GENERAL`), the rewritten error names the key and the
requested visibility, but the `when domain is %s` slot is filled with the
resolved visibility `READWRITE` — the Go code reads
`domain := newMetadata.Domain.Visibility` — and the message does not contain
the resolved domain tag `GENERAL` at all, contradicting the claim. -/
theorem addMetadata_visibility_error_lacks_domain_tag :
    (addMetadata execVis "https://host/api/entity/1" "secret" "x" "MetadataStringValue"
        "READONLY" false =
      Except.error ("error adding metadata with key secret: visibility cannot be READONLY" ++
        " when domain is READWRITE: API Error: 500: [ 1 ] visibility")) ∧
    containsSubstr ("error adding metadata with key secret: visibility cannot be READONLY" ++
        " when domain is READWRITE: API Error: 500: [ 1 ] visibility") "GENERAL" = false := by
  exact ⟨by decide, by decide⟩

/-- Claim C2: for every href, key, value, typedValue and visibility argument,
`addMetadata` with `isSystem = false` builds a PUT request to
`<href>/metadata/<key>` whose body has domain tag `GENERAL` and visibility
`MetadataReadWriteVisibility`, regardless of which visibility string the
caller passed. -/
theorem addMetadata_general_coerces_readwrite
    (requestUri key value typedValue visibility : String) :
    addMetadataRequest requestUri key value typedValue visibility false =
      { uri := requestUri ++ ("/metadata/" ++ key)
        method := HttpMethod.put
        contentType := MimeMetaDataValue
        errorMessage := "error adding metadata: %s"
        body := RequestBody.metadataValue
          { Xmlns := XMLNamespaceVCloud
            Xsi := XMLNamespaceXSI
            TypedValue := some { XsiType := typedValue, Value := value }
            Domain := some { Visibility := MetadataReadWriteVisibility
                             Domain := "GENERAL" } } } := by
  unfold addMetadataRequest addMetadataValue addMetadataDomainTag addMetadataPath
  by_cases h : visibility = MetadataReadWriteVisibility
  · subst h; simp
  · simp [h]

/-- Claim C3: for every href, key, value, typedValue and visibility argument,
`addMetadata` with `isSystem = true` builds a PUT request to
`<href>/metadata/SYSTEM/<key>` whose body has domain tag `SYSTEM` and carries
the caller's requested visibility verbatim. -/
theorem addMetadata_system_preserves_visibility
    (requestUri key value typedValue visibility : String) :
    addMetadataRequest requestUri key value typedValue visibility true =
      { uri := requestUri ++ ("/metadata/SYSTEM/" ++ key)
        method := HttpMethod.put
        contentType := MimeMetaDataValue
        errorMessage := "error adding metadata: %s"
        body := RequestBody.metadataValue
          { Xmlns := XMLNamespaceVCloud
            Xsi := XMLNamespaceXSI
            TypedValue := some { XsiType := typedValue, Value := value }
            Domain := some { Visibility := visibility, Domain := "SYSTEM" } } } := rfl

/-- Claim C4: for every input map, `mergeAllMetadata` issues a POST to
`<href>/metadata` (no trailing key segment) whose payload holds exactly one
`MetadataEntry` per map item, each carrying that item's key, typed value and
domain exactly as supplied, with no coercion. -/
theorem mergeAllMetadata_batch_exact (requestUri : String)
    (metadata : List (String × MetadataValue)) :
    (mergeAllMetadataRequest requestUri metadata).uri = requestUri ++ "/metadata" ∧
    (mergeAllMetadataRequest requestUri metadata).method = HttpMethod.post ∧
    ∃ m : Metadata,
      (mergeAllMetadataRequest requestUri metadata).body = RequestBody.metadata m ∧
      m.MetadataEntry.length = metadata.length ∧
      List.Forall₂ (fun (kv : String × MetadataValue) (e : MetadataEntry) =>
          e.Key = kv.1 ∧ e.TypedValue = kv.2.TypedValue ∧ e.Domain = kv.2.Domain)
        metadata m.MetadataEntry := by
  refine ⟨rfl, rfl,
    { Xmlns := XMLNamespaceVCloud
      Xsi := XMLNamespaceXSI
      MetadataEntry := mergeAllMetadataEntries metadata }, rfl, ?_, ?_⟩
  · simp [mergeAllMetadataEntries]
  · induction metadata with
    | nil => exact List.Forall₂.nil
    | cons kv rest ih => exact List.Forall₂.cons ⟨rfl, rfl, rfl⟩ ih

/-- Claim C6: for every href, key and domain flag, `deleteMetadata` constructs
exactly the request path that `addMetadata` constructs for the same arguments,
and issues a DELETE with a nil body. -/
theorem deleteMetadata_mirrors_addMetadata_path
    (requestUri key value typedValue visibility : String) (isSystem : Bool) :
    (deleteMetadataRequest requestUri key isSystem).uri =
      (addMetadataRequest requestUri key value typedValue visibility isSystem).uri ∧
    (deleteMetadataRequest requestUri key isSystem).method = HttpMethod.delete ∧
    (deleteMetadataRequest requestUri key isSystem).body = RequestBody.none := by
  refine ⟨?_, rfl, rfl⟩
  cases isSystem <;> rfl

/-- Claim C9: for an empty input map, `mergeAllMetadata` still issues the POST
with an empty entry list and returns exactly what the client request produces,
synthesizing no client-side error. -/
theorem mergeAllMetadata_empty_map (exec : TaskRequest → Except String Task)
    (requestUri : String) :
    mergeAllMetadata exec requestUri [] =
      exec { uri := requestUri ++ "/metadata"
             method := HttpMethod.post
             contentType := MimeMetaData
             errorMessage := "error adding metadata: %s"
             body := RequestBody.metadata
               { Xmlns := XMLNamespaceVCloud
                 Xsi := XMLNamespaceXSI
                 MetadataEntry := [] } } := rfl

/-- Claim C10: every write payload carries the XML namespace declarations:
`addMetadata` sets `Xmlns`/`Xsi` on the `MetadataValue` it sends, and
`mergeAllMetadata` sets them on the enclosing `Metadata` payload and on each
`MetadataEntry` it builds. -/
theorem write_payloads_carry_xml_namespaces
    (requestUri key value typedValue visibility : String) (isSystem : Bool)
    (metadata : List (String × MetadataValue)) :
    ((addMetadataRequest requestUri key value typedValue visibility isSystem).body =
        RequestBody.metadataValue (addMetadataValue value typedValue visibility isSystem) ∧
      (addMetadataValue value typedValue visibility isSystem).Xmlns = XMLNamespaceVCloud ∧
      (addMetadataValue value typedValue visibility isSystem).Xsi = XMLNamespaceXSI) ∧
    ∃ m : Metadata,
      (mergeAllMetadataRequest requestUri metadata).body = RequestBody.metadata m ∧
      m.Xmlns = XMLNamespaceVCloud ∧ m.Xsi = XMLNamespaceXSI ∧
      (m.MetadataEntry.all fun e =>
        (e.Xmlns == XMLNamespaceVCloud) && (e.Xsi == XMLNamespaceXSI)) = true := by
  exact ⟨⟨rfl, rfl, rfl⟩,
    { Xmlns := XMLNamespaceVCloud
      Xsi := XMLNamespaceXSI
      MetadataEntry := mergeAllMetadataEntries metadata },
    rfl, rfl, rfl, mergeAllMetadataEntries_ns metadata⟩

/-- Claim C5: `AdminVdc.DeleteMetadataEntryWithDomain` deletes against
`getAdminURL(adminVdc.AdminVdc.HREF)` whereas the asynchronous variant deletes
against the stored HREF unchanged; for every HREF that `getAdminURL` does not
map to itself the two target different URLs, so the synchronous variant is not
equivalent to the asynchronous variant followed by waiting on its task. -/
theorem adminVdc_delete_sync_async_targets_differ (v : AdminVdc) (key : String)
    (isSystem : Bool) (h : getAdminURL v.adminVdc.HREF ≠ v.adminVdc.HREF) :
    (∀ exec wait, AdminVdc.DeleteMetadataEntryWithDomain v exec wait key isSystem =
        deleteMetadataAndWait exec wait (getAdminURL v.adminVdc.HREF) key isSystem) ∧
    (∀ exec, AdminVdc.DeleteMetadataEntryWithDomainAsync v exec key isSystem =
        deleteMetadata exec v.adminVdc.HREF key isSystem) ∧
    (deleteMetadataRequest (getAdminURL v.adminVdc.HREF) key isSystem).uri ≠
      (deleteMetadataRequest v.adminVdc.HREF key isSystem).uri ∧
    ∃ exec : TaskRequest → Except String Task, ∃ wait : Task → Option String,
      AdminVdc.DeleteMetadataEntryWithDomain v exec wait key isSystem ≠
        (match AdminVdc.DeleteMetadataEntryWithDomainAsync v exec key isSystem with
          | Except.error e => some e
          | Except.ok task => wait task) := by
  have huri : (deleteMetadataRequest (getAdminURL v.adminVdc.HREF) key isSystem).uri ≠
      (deleteMetadataRequest v.adminVdc.HREF key isSystem).uri := by
    rw [deleteMetadataRequest_uri_eq, deleteMetadataRequest_uri_eq]
    exact addMetadataPath_ne key isSystem h
  refine ⟨fun exec wait => rfl, fun exec => rfl, huri, ?_⟩
  refine ⟨fun r =>
      if r.uri = (deleteMetadataRequest (getAdminURL v.adminVdc.HREF) key isSystem).uri
      then Except.error "admin target" else Except.error "plain target", waitNone, ?_⟩
  have hA : AdminVdc.DeleteMetadataEntryWithDomain v
      (fun r =>
        if r.uri = (deleteMetadataRequest (getAdminURL v.adminVdc.HREF) key isSystem).uri
        then Except.error "admin target" else Except.error "plain target")
      waitNone key isSystem = some "admin target" := by
    unfold AdminVdc.DeleteMetadataEntryWithDomain deleteMetadataAndWait deleteMetadata
    simp
  have hB : AdminVdc.DeleteMetadataEntryWithDomainAsync v
      (fun r =>
        if r.uri = (deleteMetadataRequest (getAdminURL v.adminVdc.HREF) key isSystem).uri
        then Except.error "admin target" else Except.error "plain target")
      key isSystem = Except.error "plain target" := by
    unfold AdminVdc.DeleteMetadataEntryWithDomainAsync deleteMetadata
    simp [Ne.symm huri]
  rw [hA, hB]
  decide

/-- Witness for claim C5 at a concrete AdminVdc whose HREF is changed by
`getAdminURL`. -/
theorem adminVdc_delete_sync_async_targets_differ_witness :
    (deleteMetadataRequest (getAdminURL sampleAdminVdc.adminVdc.HREF) "mykey" false).uri ≠
      (deleteMetadataRequest sampleAdminVdc.adminVdc.HREF "mykey" false).uri :=
  (adminVdc_delete_sync_async_targets_differ sampleAdminVdc "mykey" false (by decide)).2.2.1

/-- Claim C7: each "AndWait" wrapper returns the underlying request's error
unchanged without consulting the wait operation when the request fails, and
returns the untransformed result of waiting on the returned task when it
succeeds, adding exactly one failure source. -/
theorem andWait_wrappers_single_failure_source
    (exec : TaskRequest → Except String Task) (wait wait' : Task → Option String)
    (requestUri key value typedValue visibility : String) (isSystem : Bool)
    (metadata : List (String × MetadataValue)) :
    (∀ e, addMetadata exec requestUri key value typedValue visibility isSystem =
        Except.error e →
      addMetadataAndWait exec wait requestUri key value typedValue visibility isSystem =
        some e ∧
      addMetadataAndWait exec wait requestUri key value typedValue visibility isSystem =
        addMetadataAndWait exec wait' requestUri key value typedValue visibility isSystem) ∧
    (∀ t, addMetadata exec requestUri key value typedValue visibility isSystem =
        Except.ok t →
      addMetadataAndWait exec wait requestUri key value typedValue visibility isSystem =
        wait t) ∧
    (∀ e, mergeAllMetadata exec requestUri metadata = Except.error e →
      mergeMetadataAndWait exec wait requestUri metadata = some e ∧
      mergeMetadataAndWait exec wait requestUri metadata =
        mergeMetadataAndWait exec wait' requestUri metadata) ∧
    (∀ t, mergeAllMetadata exec requestUri metadata = Except.ok t →
      mergeMetadataAndWait exec wait requestUri metadata = wait t) ∧
    (∀ e, deleteMetadata exec requestUri key isSystem = Except.error e →
      deleteMetadataAndWait exec wait requestUri key isSystem = some e ∧
      deleteMetadataAndWait exec wait requestUri key isSystem =
        deleteMetadataAndWait exec wait' requestUri key isSystem) ∧
    (∀ t, deleteMetadata exec requestUri key isSystem = Except.ok t →
      deleteMetadataAndWait exec wait requestUri key isSystem = wait t) := by
  refine ⟨?_, ?_, ?_, ?_, ?_, ?_⟩
  · intro e he
    constructor <;> (unfold addMetadataAndWait; rw [he])
  · intro t ht
    unfold addMetadataAndWait
    rw [ht]
  · intro e he
    constructor <;> (unfold mergeMetadataAndWait; rw [he])
  · intro t ht
    unfold mergeMetadataAndWait
    rw [ht]
  · intro e he
    constructor <;> (unfold deleteMetadataAndWait; rw [he])
  · intro t ht
    unfold deleteMetadataAndWait
    rw [ht]

/-- Witness for claim C7: with a client that fails every request, the add
wrapper surfaces that error unchanged. -/
theorem andWait_wrappers_single_failure_source_witness :
    addMetadataAndWait execFail waitSome "https://host/api/entity/1" "k" "v"
      "MetadataStringValue" "READONLY" false = some "request failed" :=
  ((andWait_wrappers_single_failure_source execFail waitSome waitNone
      "https://host/api/entity/1" "k" "v" "MetadataStringValue" "READONLY" false []).1
    "request failed" (by decide)).1

/-- Claim C8: every OrgVDCNetwork mutation (add, merge, delete, asynchronous
and synchronous) targets `getAdminURL(orgVdcNetwork.OrgVDCNetwork.HREF)` while
both read operations target the stored HREF unchanged, so reads and writes
address different URLs whenever `getAdminURL` alters the HREF. -/
theorem orgVdcNetwork_writes_admin_reads_plain (n : OrgVDCNetwork)
    (key value typedValue visibility : String) (isSystem : Bool)
    (metadata : List (String × MetadataValue))
    (h : getAdminURL n.orgVDCNetwork.HREF ≠ n.orgVDCNetwork.HREF) :
    (∀ exec, OrgVDCNetwork.AddMetadataEntryWithVisibilityAsync n exec key value
        typedValue visibility isSystem =
      addMetadata exec (getAdminURL n.orgVDCNetwork.HREF) key value typedValue
        visibility isSystem) ∧
    (∀ exec, OrgVDCNetwork.MergeMetadataWithMetadataValuesAsync n exec metadata =
      mergeAllMetadata exec (getAdminURL n.orgVDCNetwork.HREF) metadata) ∧
    (∀ exec, OrgVDCNetwork.DeleteMetadataEntryWithDomainAsync n exec key isSystem =
      deleteMetadata exec (getAdminURL n.orgVDCNetwork.HREF) key isSystem) ∧
    (∀ exec wait, OrgVDCNetwork.AddMetadataEntryWithVisibility n exec wait key value
        typedValue visibility isSystem =
      addMetadataAndWait exec wait (getAdminURL n.orgVDCNetwork.HREF) key value
        typedValue visibility isSystem) ∧
    (∀ exec wait, OrgVDCNetwork.MergeMetadataWithMetadataValues n exec wait metadata =
      mergeMetadataAndWait exec wait (getAdminURL n.orgVDCNetwork.HREF) metadata) ∧
    (∀ exec wait, OrgVDCNetwork.DeleteMetadataEntryWithDomain n exec wait key isSystem =
      deleteMetadataAndWait exec wait (getAdminURL n.orgVDCNetwork.HREF) key isSystem) ∧
    (∀ ex, OrgVDCNetwork.GetMetadataByKey n ex key isSystem =
      getMetadataByKey ex n.orgVDCNetwork.HREF key isSystem) ∧
    (∀ ex, OrgVDCNetwork.GetMetadata n ex = getMetadata ex n.orgVDCNetwork.HREF) ∧
    (addMetadataRequest (getAdminURL n.orgVDCNetwork.HREF) key value typedValue
        visibility isSystem).uri ≠
      (getMetadataByKeyRequest n.orgVDCNetwork.HREF key isSystem).uri ∧
    (deleteMetadataRequest (getAdminURL n.orgVDCNetwork.HREF) key isSystem).uri ≠
      (getMetadataByKeyRequest n.orgVDCNetwork.HREF key isSystem).uri ∧
    (mergeAllMetadataRequest (getAdminURL n.orgVDCNetwork.HREF) metadata).uri ≠
      (getMetadataRequest n.orgVDCNetwork.HREF).uri := by
  refine ⟨fun exec => rfl, fun exec => rfl, fun exec => rfl, fun exec wait => rfl,
    fun exec wait => rfl, fun exec wait => rfl, fun ex => rfl, fun ex => rfl, ?_, ?_, ?_⟩
  · rw [getByKey_uri_eq]
    exact addMetadataPath_ne key isSystem h
  · rw [deleteMetadataRequest_uri_eq, getByKey_uri_eq]
    exact addMetadataPath_ne key isSystem h
  · exact merge_uri_ne_read_uri _ _

/-- Witness for claim C8 at a concrete OrgVDCNetwork whose HREF is changed by
`getAdminURL`. -/
theorem orgVdcNetwork_writes_admin_reads_plain_witness :
    (addMetadataRequest (getAdminURL sampleOrgVdcNetwork.orgVDCNetwork.HREF) "k" "v"
        "MetadataStringValue" "READWRITE" false).uri ≠
      (getMetadataByKeyRequest sampleOrgVdcNetwork.orgVDCNetwork.HREF "k" false).uri :=
  (orgVdcNetwork_writes_admin_reads_plain sampleOrgVdcNetwork "k" "v"
    "MetadataStringValue" "READWRITE" false [] (by decide)).2.2.2.2.2.2.2.2.1

end Govcd
